import Mathlib

/-!
Verification of the block-averaging analysis script `plot_h5md.py`.

The script has two parts:
* `compute_average(data, label, nblocks=10)` — groups the data into
  `nblocks` contiguous blocks (discarding the trailing remainder), and
  returns the overall mean together with a standard-error estimate
  `std(block_means) / sqrt(nblocks - 1)` (numpy `std`, population form).
* `main()` — parses `--range`, `--dump`, `--no-plot`, slices each loaded
  dataset with Python slice semantics, feeds the slices to the reducer,
  and optionally appends a (time, E_pot) table to a dump file.

Samples are modelled as exact rationals; the real-valued square root enters
only in the final standard-error expression.  numpy's NaN results (mean of
an empty slice, which happens exactly when `len(data) / nblocks == 0`) are
modelled by `Option`: `none` is the undefined/NaN outcome.  The model is
stated for block counts `B ≥ 2` (the script's own documented constraint);
at `B = 1` the code divides by `sqrt(0)` in floating point, which exact
arithmetic does not represent, and no theorem below touches that case.
-/

/-- Arithmetic mean of a list of rationals, `sum / len`; numpy `mean` on a
nonempty 1-D array.  (On `[]` numpy returns NaN; callers below only reach
the empty case through the `none` branch of `compute_average`.) -/
def listMean (l : List ℚ) : ℚ := l.sum / l.length

/-- Population variance (numpy `std` squared, default `ddof = 0`):
mean of squared deviations from the mean. -/
def listVar (l : List ℚ) : ℚ := listMean (l.map (fun x => (x - listMean l) ^ 2))

/-- Number of samples per block: `data.shape[0] / nblocks` with Python 2
integer (floor) division. -/
def blockLen (data : List ℚ) (B : ℕ) : ℕ := data.length / B

/-- The retained samples: `data[:(nblocks * (data.shape[0] / nblocks))]`,
i.e. the input truncated to the largest multiple of `B`. -/
def retained (data : List ℚ) (B : ℕ) : List ℚ := data.take (B * blockLen data B)

/-- Row means of `reshape(retained, (nblocks, -1))`, i.e. `mean(data, axis=1)`:
row `i` of the C-order reshape is the contiguous slice
`retained[i*k : (i+1)*k]` with `k = blockLen`. -/
def blockMeans (data : List ℚ) (B : ℕ) : List ℚ :=
  (List.range B).map
    (fun i => listMean (((retained data B).drop (i * blockLen data B)).take (blockLen data B)))

/-- Rational part of the reducer: the overall mean of the retained samples
(`mean(data)` over all elements of the reshaped array), or `none` in the
degenerate case `len(data) / nblocks == 0`, where numpy's `mean` of the
empty rows is NaN. -/
def caMean (data : List ℚ) (B : ℕ) : Option ℚ :=
  if blockLen data B = 0 then none else some (listMean (retained data B))

/-- The reducer `compute_average(data, label, nblocks)`: returns
`(avg, err)` with `avg = mean(data)` over the retained samples and
`err = std(mean(data, axis=1)) / sqrt(nblocks - 1)`.  When
`len(data) / nblocks == 0` every block is empty and numpy produces NaN for
both components, modelled as `none`.  The status-line print is ignored. -/
noncomputable def compute_average (data : List ℚ) (B : ℕ) : Option (ℚ × ℝ) :=
  if blockLen data B = 0 then none
  else some (listMean (retained data B),
    Real.sqrt ((listVar (blockMeans data B) : ℚ) : ℝ) / Real.sqrt ((B : ℝ) - 1))

/-- Python index normalisation for slicing: a negative index counts from
the end (`i + len`). -/
def pyIndex (n : ℕ) (i : ℤ) : ℤ := if i < 0 then i + (n : ℤ) else i

/-- Python slice-bound clamping to `[0, len]`. -/
def clampIndex (n : ℕ) (i : ℤ) : ℕ := (min (max i 0) (n : ℤ)).toNat

/-- Python slice `l[start:stop]` (step 1): normalise negative bounds, clamp
both into `[0, len]`, and take the elements with positions in
`[start, stop)`.  Out-of-range bounds never raise; they are clamped. -/
def pySlice (start stop : ℤ) (l : List ℚ) : List ℚ :=
  (l.take (clampIndex l.length (pyIndex l.length stop))).drop
    (clampIndex l.length (pyIndex l.length start))

/-- The driver's default range: `args.range or [0, -1]`. -/
def defaultRange : ℤ × ℤ := (0, -1)

/-- How `main` slices every dataset: `array(H5[name])[range[0]:range[1]]`,
with the default range used when `--range` is absent. -/
def selectSeries (r : Option (ℤ × ℤ)) (l : List ℚ) : List ℚ :=
  pySlice (r.getD defaultRange).1 (r.getD defaultRange).2 l

section DumpModel

/-- One text line of the dump file: the `print >>f, '# time   E_pot(t)'`
header, one `savetxt` data row holding a (time, E_pot) pair, or an empty
line. -/
inductive DumpLine where
  | header : DumpLine
  | row : ℚ → ℚ → DumpLine
  | blank : DumpLine
deriving DecidableEq

/-- The rows written by `savetxt(f, array((x, y)).T)`: one two-column row
per index, pairing `x` and `y` elementwise. -/
def savetxtRows (x y : List ℚ) : List DumpLine :=
  (x.zip y).map (fun p => DumpLine.row p.1 p.2)

/-- One execution of the dump branch of `main`: the file is opened in
append mode (`open(args.dump, 'a')`), so the new block follows the existing
lines `f`.  The block is the header line, the `savetxt` rows, and then the
separator `print >>f, '\n'`, which writes the newline in the string plus
the newline `print` itself appends — i.e. two empty lines. -/
def dumpAppend (f : List DumpLine) (x y : List ℚ) : List DumpLine :=
  ((f ++ [DumpLine.header]) ++ savetxtRows x y) ++ [DumpLine.blank, DumpLine.blank]

/-- A plot-library call issued by `main`: the time series
`plot(x, y, '-b')`, or the constant overlay at the computed mean
(`plot(linspace(min x, max x), zeros_like + epot, ':k')`, recorded here by
the x-series it spans and the mean value it draws). -/
inductive PlotCall where
  | series : List ℚ → List ℚ → PlotCall
  | meanOverlay : List ℚ → Option ℚ → PlotCall

/-- Observable outcome of one run of `main`: the dump-file contents and the
sequence of plot calls. -/
structure RunResult where
  dumpFile : List DumpLine
  plots : List PlotCall

/-- The driver `main`, restricted to its observable effects on the dump
file and the plot, in the source's statement order: slice `TIME` and
`EPOT`, plot the series unless `--no-plot`, append to the dump file if
`--dump`, then (unless `--no-plot`) overlay the constant mean — the mean
the reducer computed on the sliced energy with the default `nblocks = 10`.
The reassignment of `x`/`y` for the overlay happens after the dump. -/
def mainModel (noPlot : Bool) (dump : Bool) (r : Option (ℤ × ℤ))
    (time epot : List ℚ) (existing : List DumpLine) : RunResult :=
  let x := selectSeries r time
  let y := selectSeries r epot
  let firstPlot : List PlotCall := if noPlot then [] else [PlotCall.series x y]
  let fileAfter := if dump then dumpAppend existing x y else existing
  let secondPlot : List PlotCall :=
    if noPlot then [] else [PlotCall.meanOverlay x (caMean y 10)]
  ⟨fileAfter, firstPlot ++ secondPlot⟩

end DumpModel

/-- Block mean written the way the spec phrases it: the mean of the `i`-th
contiguous block of `k` samples, as an indexed finite sum. -/
def specBlockMean (data : List ℚ) (k i : ℕ) : ℚ :=
  (∑ j ∈ Finset.range k, data.getD (i * k + j) 0) / k

/-- Mean of the `B` block means, per the spec's description. -/
def specMeansAvg (data : List ℚ) (B k : ℕ) : ℚ :=
  (∑ i ∈ Finset.range B, specBlockMean data k i) / B

/-- Population variance across the `B` block means, per the spec's
description of the standard deviation across block means. -/
def specVarMeans (data : List ℚ) (B k : ℕ) : ℚ :=
  (∑ i ∈ Finset.range B, (specBlockMean data k i - specMeansAvg data B k) ^ 2) / B

/-- A slice bound is in bounds for an array of length `n`.  Modelled from
the spec: "the range indices are out of bounds for the loaded arrays"
treats an index as valid when it addresses a position of the array
(allowing Python's negative-from-the-end convention). -/
def specIndexInBounds (i : ℤ) (n : ℕ) : Bool :=
  decide (-(n : ℤ) ≤ i) && decide (i ≤ (n : ℤ))

/-- A range is in bounds for arrays of length `n` when both of its indices
are.  Modelled from the spec's error taxonomy, item (c). -/
def specRangeInBounds (start stop : ℤ) (n : ℕ) : Bool :=
  specIndexInBounds start n && specIndexInBounds stop n

-- Basic evaluation facts, used to keep later proofs short.

lemma compute_average_map_fst (data : List ℚ) (B : ℕ) :
    (compute_average data B).map Prod.fst = caMean data B := by
  by_cases h : blockLen data B = 0 <;> simp [compute_average, caMean, h]

lemma compute_average_of_blockLen_pos (data : List ℚ) (B : ℕ)
    (h : blockLen data B ≠ 0) :
    compute_average data B = some (listMean (retained data B),
      Real.sqrt ((listVar (blockMeans data B) : ℚ) : ℝ) / Real.sqrt ((B : ℝ) - 1)) := by
  simp [compute_average, h]

/-- Claim C5: if the block count exceeds the number of samples, the reducer
yields the undefined (NaN) result rather than an ordinary number. -/
theorem compute_average_overblocked_none (data : List ℚ) (B : ℕ)
    (h : data.length < B) : compute_average data B = none := by
  have hz : blockLen data B = 0 := Nat.div_eq_of_lt h
  simp [compute_average, hz]

/-- Witness for C5 at a concrete input: three samples, ten blocks. -/
theorem compute_average_overblocked_none_witness :
    ([(1 : ℚ), 2, 3].length < 10) ∧ compute_average [(1 : ℚ), 2, 3] 10 = none :=
  ⟨by decide, compute_average_overblocked_none [(1 : ℚ), 2, 3] 10 (by decide)⟩

-- Slicing lemmas.

lemma pySlice_stop_ge (stop : ℤ) (l : List ℚ) (h : (l.length : ℤ) ≤ stop) :
    pySlice 0 stop l = l := by
  have h0 : clampIndex l.length (pyIndex l.length 0) = 0 := by
    simp [clampIndex, pyIndex]
  have hs : clampIndex l.length (pyIndex l.length stop) = l.length := by
    have hge : ¬ stop < 0 := by omega
    simp only [clampIndex, pyIndex, hge, if_false]
    omega
  rw [pySlice, hs, h0, List.take_length, List.drop_zero]

lemma pySlice_start_ge (start stop : ℤ) (l : List ℚ) (h : (l.length : ℤ) ≤ start) :
    pySlice start stop l = [] := by
  have hs : clampIndex l.length (pyIndex l.length start) = l.length := by
    have hge : ¬ start < 0 := by omega
    simp only [clampIndex, pyIndex, hge, if_false]
    omega
  rw [pySlice, hs]
  apply List.drop_eq_nil_of_le
  simp [List.length_take]

lemma pySlice_zero_neg_one (l : List ℚ) : pySlice 0 (-1) l = l.dropLast := by
  have h0 : clampIndex l.length (pyIndex l.length 0) = 0 := by
    simp [clampIndex, pyIndex]
  have hs : clampIndex l.length (pyIndex l.length (-1)) = l.length - 1 := by
    simp only [clampIndex, pyIndex, if_pos (by omega : (-1 : ℤ) < 0)]
    omega
  rw [pySlice, hs, h0, List.drop_zero, ← List.dropLast_eq_take]

/-- Claim C2 counterexample: with the range option omitted, the driver's
default selection does not return the entire loaded series. -/
theorem default_range_not_entire_cex :
    selectSeries none [(1 : ℚ), 2, 3] ≠ [(1 : ℚ), 2, 3] := by decide

/-- Claim C2 (amended): when the range option is omitted the driver uses
the default range (0, -1), and under Python slice semantics this selects
every loaded sample except the last one, for every dataset handed to the
reducer, the plot and the dump; the end index -1 denotes "up to but
excluding the last sample". -/
theorem default_range_selects_dropLast (l : List ℚ) :
    selectSeries none l = l.dropLast := by
  simpa [selectSeries, defaultRange] using pySlice_zero_neg_one l

/-- Claim C6 counterexample: a range whose stop index is out of bounds for
the loaded array is sliced without any error — the driver silently
proceeds with the clamped (here: full) selection. -/
theorem out_of_bounds_range_no_error_cex :
    specRangeInBounds 0 1000 3 = false ∧
      pySlice 0 1000 [(1 : ℚ), 2, 3] = [(1 : ℚ), 2, 3] := by decide

/-- Claim C6 (amended): the driver performs no bounds check on the range,
and the range selection itself never fails on out-of-bounds indices —
Python slicing clamps them to the array bounds: a stop index at or beyond
the length is clamped to the length, so the driver silently proceeds with
the series up to its end, and a start index at or beyond the length is
clamped to the length, so the selection is empty.  This is a statement
about the range-selection step only: an empty clamped selection can still
crash the plot branch further on (builtin `min` of the empty plotted
series), exactly as an in-bounds empty range such as (2, 2) does, so that
later failure is caused by emptiness, not by any bounds check. -/
theorem pySlice_clamps_out_of_bounds (start stop : ℤ) (l : List ℚ) :
    ((l.length : ℤ) ≤ stop → pySlice 0 stop l = l) ∧
      ((l.length : ℤ) ≤ start → pySlice start stop l = []) :=
  ⟨fun h => pySlice_stop_ge stop l h, fun h => pySlice_start_ge start stop l h⟩

/-- Witness for C6 at concrete out-of-bounds inputs. -/
theorem pySlice_clamps_out_of_bounds_witness :
    pySlice 0 1000 [(1 : ℚ), 2, 3] = [(1 : ℚ), 2, 3] ∧
      pySlice 5 1000 [(1 : ℚ), 2, 3] = [] :=
  ⟨(pySlice_clamps_out_of_bounds 0 1000 [(1 : ℚ), 2, 3]).1 (by decide),
   (pySlice_clamps_out_of_bounds 5 1000 [(1 : ℚ), 2, 3]).2 (by decide)⟩

/-- Claim C7 counterexample: reduction does not commute with range
restriction — the reducer's scalar result is not a restriction of the
full-series result: on the sub-range [0, 2) of [1, 2, 3, 4] the reducer
returns a different value than on the full series. -/
theorem slice_reduce_not_commute_cex :
    compute_average (pySlice 0 2 [(1 : ℚ), 2, 3, 4]) 2 ≠
      compute_average [(1 : ℚ), 2, 3, 4] 2 := by
  intro h
  have h2 : caMean (pySlice 0 2 [(1 : ℚ), 2, 3, 4]) 2 =
      caMean [(1 : ℚ), 2, 3, 4] 2 := by
    rw [← compute_average_map_fst, ← compute_average_map_fst, h]
  have e1 : pySlice 0 2 [(1 : ℚ), 2, 3, 4] = [(1 : ℚ), 2] := by decide
  have c1 : caMean [(1 : ℚ), 2] 2 = some (3 / 2) := by
    norm_num [caMean, blockLen, retained, listMean]
  have c2 : caMean [(1 : ℚ), 2, 3, 4] 2 = some (5 / 2) := by
    norm_num [caMean, blockLen, retained, listMean]
  rw [e1, c1, c2] at h2
  norm_num at h2

/-- Claim C7 (amended): the range-selection law holds only for the trivial
sub-range: slicing with the full range (0, N) before reduction equals
reducing the full series.  For proper sub-ranges the reducer's result on
the slice differs in general from the full-series result, and the scalar
(mean, error) pair admits no sub-range restriction. -/
theorem compute_average_full_slice (l : List ℚ) (B : ℕ) :
    compute_average (pySlice 0 (l.length : ℤ) l) B = compute_average l B := by
  rw [pySlice_stop_ge (l.length : ℤ) l le_rfl]

-- Relating the reshape-based block means to the spec's indexed sums.

lemma sum_map_range (f : ℕ → ℚ) (n : ℕ) :
    ((List.range n).map f).sum = ∑ i ∈ Finset.range n, f i := by
  induction n with
  | zero => simp
  | succ m ih =>
    rw [List.range_succ, List.map_append, List.sum_append, Finset.sum_range_succ, ih]
    simp

lemma length_drop_take (l : List ℚ) (a k : ℕ) (h : a + k ≤ l.length) :
    ((l.drop a).take k).length = k := by
  simp only [List.length_take, List.length_drop]
  omega

lemma sum_drop_take (l : List ℚ) (a : ℕ) :
    ∀ k, a + k ≤ l.length →
      ((l.drop a).take k).sum = ∑ j ∈ Finset.range k, l.getD (a + j) 0 := by
  intro k
  induction k with
  | zero => intro _; simp
  | succ m ih =>
    intro h
    have hm : a + m < l.length := by omega
    have hget : (l.drop a)[m]? = some l[a + m] := by
      rw [List.getElem?_drop, List.getElem?_eq_getElem hm]
    rw [List.take_succ, List.sum_append, ih (by omega), Finset.sum_range_succ, hget]
    simp [List.getD_eq_getElem l 0 hm, List.getElem?_eq_getElem hm]

lemma listMean_drop_take (l : List ℚ) (a k : ℕ) (h : a + k ≤ l.length) :
    listMean ((l.drop a).take k) = (∑ j ∈ Finset.range k, l.getD (a + j) 0) / k := by
  rw [listMean, sum_drop_take l a k h, length_drop_take l a k h]

lemma listMean_map_range (f : ℕ → ℚ) (n : ℕ) :
    listMean ((List.range n).map f) = (∑ i ∈ Finset.range n, f i) / n := by
  rw [listMean, sum_map_range]
  simp

lemma listVar_map_range (f : ℕ → ℚ) (n : ℕ) :
    listVar ((List.range n).map f) =
      (∑ i ∈ Finset.range n, (f i - (∑ i ∈ Finset.range n, f i) / n) ^ 2) / n := by
  simp only [listVar, List.map_map, listMean_map_range, Function.comp]

lemma blockMeans_eq_spec (data : List ℚ) (B : ℕ) (h0 : 0 < data.length)
    (hd : B ∣ data.length) :
    blockMeans data B = (List.range B).map (specBlockMean data (data.length / B)) := by
  have hmul : B * blockLen data B = data.length := Nat.mul_div_cancel' hd
  have hret : retained data B = data := by rw [retained, hmul, List.take_length]
  rw [blockMeans, hret]
  apply List.map_congr_left
  intro i hi
  rw [List.mem_range] at hi
  have hle : i * blockLen data B + blockLen data B ≤ data.length := by
    have h1 : (i + 1) * blockLen data B ≤ B * blockLen data B :=
      Nat.mul_le_mul hi le_rfl
    have h2 : (i + 1) * blockLen data B = i * blockLen data B + blockLen data B := by
      ring
    omega
  rw [listMean_drop_take data _ _ hle]
  rfl

lemma compute_average_eq_spec (data : List ℚ) (B : ℕ) (h0 : 0 < data.length)
    (hd : B ∣ data.length) (hB : 2 ≤ B) :
    compute_average data B = some (data.sum / data.length,
      Real.sqrt ((specVarMeans data B (data.length / B) : ℚ) : ℝ) /
        Real.sqrt ((B : ℝ) - 1)) := by
  have hmul : B * blockLen data B = data.length := Nat.mul_div_cancel' hd
  have hkne : blockLen data B ≠ 0 := by
    intro hz
    rw [hz, Nat.mul_zero] at hmul
    omega
  have hret : retained data B = data := by rw [retained, hmul, List.take_length]
  have hvar : listVar (blockMeans data B) = specVarMeans data B (data.length / B) := by
    rw [blockMeans_eq_spec data B h0 hd, listVar_map_range, specVarMeans, specMeansAvg]
  rw [compute_average_of_blockLen_pos data B hkne, hret, hvar, listMean]

/-- Claim C1: for a sample count that is a positive multiple of the block
count B, with B at least 2, the reducer returns the arithmetic mean over
all retained samples (here: all samples) together with the standard
deviation across the B contiguous equal-length block means divided by
sqrt(B-1) (numpy standard deviation, population form). -/
theorem compute_average_mean_stderr (data : List ℚ) (B : ℕ) (h0 : 0 < data.length)
    (hd : B ∣ data.length) (hB : 2 ≤ B) :
    compute_average data B = some (data.sum / data.length,
      Real.sqrt ((specVarMeans data B (data.length / B) : ℚ) : ℝ) /
        Real.sqrt ((B : ℝ) - 1)) :=
  compute_average_eq_spec data B h0 hd hB

/-- Witness for C1 at the concrete input [1, 2, 3, 4] with B = 2. -/
theorem compute_average_mean_stderr_witness :
    (0 < [(1 : ℚ), 2, 3, 4].length ∧ 2 ∣ [(1 : ℚ), 2, 3, 4].length ∧ 2 ≤ 2) ∧
      compute_average [(1 : ℚ), 2, 3, 4] 2 = some ([(1 : ℚ), 2, 3, 4].sum / [(1 : ℚ), 2, 3, 4].length,
        Real.sqrt ((specVarMeans [(1 : ℚ), 2, 3, 4] 2 ([(1 : ℚ), 2, 3, 4].length / 2) : ℚ) : ℝ) /
          Real.sqrt ((2 : ℝ) - 1)) :=
  ⟨⟨by decide, by decide, by decide⟩,
    compute_average_mean_stderr [(1 : ℚ), 2, 3, 4] 2 (by decide) (by decide) (by decide)⟩

/-- Claim C9: the standard-error estimate uses numpy's default population
standard deviation over the B block means — the variance divides by B (not
B-1) inside the square root, and the whole is then divided by sqrt(B-1). -/
theorem compute_average_std_ddof0 (data : List ℚ) (B : ℕ) (h0 : 0 < data.length)
    (hd : B ∣ data.length) (hB : 2 ≤ B) :
    (compute_average data B).map Prod.snd =
      some (Real.sqrt (((1 / (B : ℚ)) * ∑ i ∈ Finset.range B,
            (specBlockMean data (data.length / B) i -
              specMeansAvg data B (data.length / B)) ^ 2 : ℚ) : ℝ) /
          Real.sqrt ((B : ℝ) - 1)) := by
  have hq : ((1 / (B : ℚ)) * ∑ i ∈ Finset.range B,
      (specBlockMean data (data.length / B) i -
        specMeansAvg data B (data.length / B)) ^ 2) =
      specVarMeans data B (data.length / B) := by
    rw [specVarMeans]
    ring
  rw [compute_average_eq_spec data B h0 hd hB, hq]
  rfl

/-- Witness for C9 at the concrete input [1, 2, 3, 4] with B = 2. -/
theorem compute_average_std_ddof0_witness :
    (0 < [(1 : ℚ), 2, 3, 4].length ∧ 2 ∣ [(1 : ℚ), 2, 3, 4].length ∧ 2 ≤ 2) ∧
      (compute_average [(1 : ℚ), 2, 3, 4] 2).map Prod.snd =
        some (Real.sqrt (((1 / (2 : ℚ)) * ∑ i ∈ Finset.range 2,
              (specBlockMean [(1 : ℚ), 2, 3, 4] ([(1 : ℚ), 2, 3, 4].length / 2) i -
                specMeansAvg [(1 : ℚ), 2, 3, 4] 2 ([(1 : ℚ), 2, 3, 4].length / 2)) ^ 2 : ℚ) : ℝ) /
            Real.sqrt ((2 : ℝ) - 1)) :=
  ⟨⟨by decide, by decide, by decide⟩,
    compute_average_std_ddof0 [(1 : ℚ), 2, 3, 4] 2 (by decide) (by decide) (by decide)⟩

-- Truncation: the reducer only ever looks at the first B * (N / B) samples.

lemma blockLen_take_mul (data : List ℚ) (B : ℕ) (hB0 : 0 < B) :
    blockLen (data.take (data.length / B * B)) B = blockLen data B := by
  have hm : data.length / B * B ≤ data.length := Nat.div_mul_le_self _ _
  rw [blockLen, blockLen, List.length_take, Nat.min_eq_left hm,
    Nat.mul_div_cancel _ hB0]

lemma retained_take_mul (data : List ℚ) (B : ℕ) (hB0 : 0 < B) :
    retained (data.take (data.length / B * B)) B = retained data B := by
  rw [retained, retained, blockLen_take_mul data B hB0, List.take_take, blockLen]
  rw [mul_comm B (data.length / B)]
  rw [Nat.min_self]

lemma blockMeans_take_mul (data : List ℚ) (B : ℕ) (hB0 : 0 < B) :
    blockMeans (data.take (data.length / B * B)) B = blockMeans data B := by
  rw [blockMeans, blockMeans, blockLen_take_mul data B hB0,
    retained_take_mul data B hB0]

/-- Claim C3: the trailing `N mod B` samples have no effect — the reducer
returns the same result on the full input as on the input truncated to its
first `floor(N/B) * B` samples. -/
theorem compute_average_truncation_law (data : List ℚ) (B : ℕ) (hB : 2 ≤ B)
    (hnd : ¬ B ∣ data.length) :
    compute_average data B =
      compute_average (data.take (data.length / B * B)) B := by
  have hB0 : 0 < B := by omega
  rw [compute_average, compute_average, blockLen_take_mul data B hB0,
    retained_take_mul data B hB0, blockMeans_take_mul data B hB0]

/-- Witness for C3 at the concrete input [1, 2, 3, 4, 5] with B = 2. -/
theorem compute_average_truncation_law_witness :
    (2 ≤ 2 ∧ ¬ 2 ∣ [(1 : ℚ), 2, 3, 4, 5].length) ∧
      compute_average [(1 : ℚ), 2, 3, 4, 5] 2 =
        compute_average (List.take ([(1 : ℚ), 2, 3, 4, 5].length / 2 * 2)
          [(1 : ℚ), 2, 3, 4, 5]) 2 :=
  ⟨⟨by decide, by decide⟩,
    compute_average_truncation_law [(1 : ℚ), 2, 3, 4, 5] 2 (by decide) (by decide)⟩

-- Constant input: each block mean is the constant, so the spread is zero.

lemma listMean_replicate (n : ℕ) (v : ℚ) (hn : n ≠ 0) :
    listMean (List.replicate n v) = v := by
  rw [listMean, List.sum_replicate, List.length_replicate, nsmul_eq_mul]
  exact mul_div_cancel_left₀ v (Nat.cast_ne_zero.2 hn)

lemma listVar_replicate (n : ℕ) (v : ℚ) (hn : n ≠ 0) :
    listVar (List.replicate n v) = 0 := by
  rw [listVar, listMean_replicate n v hn, List.map_replicate]
  simp [listMean]

/-- Claim C4: on a constant sequence of N copies of v, with block count B
between 2 and N, the reducer returns mean v and standard error 0. -/
theorem compute_average_constant (v : ℚ) (N B : ℕ) (hB : 2 ≤ B) (hBN : B ≤ N) :
    compute_average (List.replicate N v) B = some (v, 0) := by
  have hB0 : 0 < B := by omega
  have hk : blockLen (List.replicate N v) B = N / B := by
    rw [blockLen, List.length_replicate]
  have hk1 : 1 ≤ N / B := (Nat.one_le_div_iff hB0).2 hBN
  have hkne : blockLen (List.replicate N v) B ≠ 0 := by omega
  have hmle : B * (N / B) ≤ N := by
    rw [mul_comm]
    exact Nat.div_mul_le_self _ _
  have hret : retained (List.replicate N v) B = List.replicate (B * (N / B)) v := by
    rw [retained, hk, List.take_replicate, Nat.min_eq_left hmle]
  have hbm : blockMeans (List.replicate N v) B = List.replicate B v := by
    rw [blockMeans, hret, hk]
    have hcongr : ∀ i ∈ List.range B,
        listMean (((List.replicate (B * (N / B)) v).drop (i * (N / B))).take (N / B)) = v := by
      intro i hi
      rw [List.mem_range] at hi
      rw [List.drop_replicate, List.take_replicate]
      have h1 : (i + 1) * (N / B) ≤ B * (N / B) := Nat.mul_le_mul hi le_rfl
      have h2 : (i + 1) * (N / B) = i * (N / B) + N / B := by ring
      have hmin : min (N / B) (B * (N / B) - i * (N / B)) = N / B :=
        Nat.min_eq_left (Nat.le_sub_of_add_le (by omega))
      rw [hmin]
      exact listMean_replicate _ _ (by omega)
    rw [List.map_congr_left hcongr, List.map_const', List.length_range]
  have hmean : listMean (retained (List.replicate N v) B) = v := by
    rw [hret]
    exact listMean_replicate _ _ (by positivity)
  rw [compute_average_of_blockLen_pos _ _ hkne, hmean, hbm,
    listVar_replicate B v (by omega)]
  norm_num

/-- Witness for C4 at the concrete input of five copies of 3 with B = 2. -/
theorem compute_average_constant_witness :
    (2 ≤ 2 ∧ 2 ≤ 5) ∧ compute_average (List.replicate 5 (3 : ℚ)) 2 = some (3, 0) :=
  ⟨⟨by decide, by decide⟩, compute_average_constant 3 5 2 (by decide) (by decide)⟩

-- Dump-file format and the append behaviour of repeated runs.

/-- Claim C8 counterexample: one run's dump block is not
"header, rows, one blank line" — the separator `print >>f, '\n'` writes an
extra newline, so a single blank line does not terminate the block. -/
theorem dump_single_blank_cex :
    dumpAppend [] [(1 : ℚ)] [(2 : ℚ)] ≠
      [DumpLine.header, DumpLine.row 1 2, DumpLine.blank] := by decide

/-- Claim C8 (amended): one run with a dump path appends, after the
existing contents, the hash-prefixed header line, then exactly one
whitespace-separated two-column row per selected sample (the elementwise
(time, E_pot) pairs), then two blank separator lines; a second run with
the same path appends a second such block after the first instead of
overwriting the file. -/
theorem dump_append_format (f : List DumpLine) (x y : List ℚ)
    (h : x.length = y.length) :
    dumpAppend f x y =
        f ++ DumpLine.header :: (savetxtRows x y ++ [DumpLine.blank, DumpLine.blank]) ∧
      (savetxtRows x y).length = x.length ∧
      dumpAppend (dumpAppend f x y) x y =
        f ++ (DumpLine.header :: (savetxtRows x y ++ [DumpLine.blank, DumpLine.blank])) ++
          (DumpLine.header :: (savetxtRows x y ++ [DumpLine.blank, DumpLine.blank])) := by
  refine ⟨?_, ?_, ?_⟩
  · simp [dumpAppend]
  · simp [savetxtRows, List.length_zip, h]
  · simp [dumpAppend]

/-- Witness for C8 with selected series [1, 2] and [3, 4] on an empty file. -/
theorem dump_append_format_witness :
    ([(1 : ℚ), 2].length = [(3 : ℚ), 4].length) ∧
      (dumpAppend [] [(1 : ℚ), 2] [(3 : ℚ), 4] =
          [] ++ DumpLine.header ::
            (savetxtRows [(1 : ℚ), 2] [(3 : ℚ), 4] ++ [DumpLine.blank, DumpLine.blank]) ∧
        (savetxtRows [(1 : ℚ), 2] [(3 : ℚ), 4]).length = [(1 : ℚ), 2].length ∧
        dumpAppend (dumpAppend [] [(1 : ℚ), 2] [(3 : ℚ), 4]) [(1 : ℚ), 2] [(3 : ℚ), 4] =
          [] ++ (DumpLine.header ::
              (savetxtRows [(1 : ℚ), 2] [(3 : ℚ), 4] ++ [DumpLine.blank, DumpLine.blank])) ++
            (DumpLine.header ::
              (savetxtRows [(1 : ℚ), 2] [(3 : ℚ), 4] ++ [DumpLine.blank, DumpLine.blank]))) :=
  ⟨by decide, dump_append_format [] [(1 : ℚ), 2] [(3 : ℚ), 4] (by decide)⟩

/-- Claim C10: the no-plot flag does not influence the dump output — for
any fixed input series, range and dump setting, the dump-file contents
after the run are identical with and without the flag; only the plot calls
differ. -/
theorem no_plot_dump_noninterference (dump : Bool) (r : Option (ℤ × ℤ))
    (time epot : List ℚ) (existing : List DumpLine) :
    (mainModel true dump r time epot existing).dumpFile =
      (mainModel false dump r time epot existing).dumpFile := rfl
